import Mathlib

/-!
Shallow embedding of the decision core of `src/Main.py` (a Kraken spot
trading bot).  Prices, USD amounts and quantities are modelled as `ℚ`;
Python `None` is `Option.none`; Python truthiness of a float (`if x:`)
is `x ≠ 0` on a present value.  External effects (exchange fetches,
order placement) are passed in as explicit snapshot arguments, so every
function here is a pure translation of the corresponding source lines.
-/

namespace KrakemBot

/-- `quantize_amount` (Main.py lines 121-125): truncate `amount` downward
to `prec` decimal places: `math.floor(amount * 10**prec) / 10**prec`. -/
def quantize_amount (amount : ℚ) (prec : ℕ) : ℚ :=
  (⌊amount * 10 ^ prec⌋ : ℚ) / 10 ^ prec

/-- The `net_pct` expression of the sell phase (Main.py line 393):
`(price / buy_price) - 1.0 - 2*FEE_EST`. -/
def net_pct (buy_price price fee : ℚ) : ℚ :=
  price / buy_price - 1 - 2 * fee

/-- Result of `market_sell` (Main.py lines 195-207): the order went
through, failed with the recognised minimum-volume message, or failed
with any other exception (which returns `{"error": str(e)}`). -/
inductive SellRes where
  | ok : SellRes
  | minVolume : SellRes
  | otherErr : SellRes
deriving DecidableEq

/-- Exchange fill response for a market order (the `res` of
`create_market_buy_order`); Main.py never reads its fields. -/
structure Fill where
  fillPrice : ℚ
  fillQty : ℚ
deriving DecidableEq

/-- `market_buy` (Main.py lines 209-230).  `price?` is the result of the
internal `fetch_price` call (`None` on fetch failure; `if not price`
also rejects a `0.0` price); `order_result` is `none` when
`create_market_buy_order` raises.  On success the function returns
`(price, qty)` - the locally fetched price and locally quantized
quantity, never anything read from the exchange's fill response. -/
def market_buy (price? : Option ℚ) (usd_amount : ℚ) (prec : ℕ)
    (min_amount : Option ℚ) (order_result : Option Fill) : Option (ℚ × ℚ) :=
  match price? with
  | none => none
  | some price =>
    if price = 0 then none
    else
      let raw_qty := usd_amount / price
      let qty := quantize_amount raw_qty prec
      if qty ≤ 0 then none
      else
        let minBad : Bool :=
          match min_amount with
          | some m => decide (m ≠ 0) && decide (qty < m)
          | none => false
        if minBad then none
        else
          match order_result with
          | some _ => some (price, qty)
          | none => none

/-- In-memory position record (`in_memory_buys[base]`, Main.py
lines 312 and 547-548): entry price, quantity, entry time and
cooldown-expiry time (both times in seconds). -/
structure BuyRec where
  price : ℚ
  qty : ℚ
  timeSec : ℚ
  cooldown_until : ℚ
deriving DecidableEq

/-- Registration on a successful buy (Main.py lines 547-548): the stored
record takes its price and qty directly from `market_buy`'s return value
`(p_buy, qty)` and sets `cooldown_until = now + COOLDOWN_MINUTES*60`. -/
def register_buy (res : ℚ × ℚ) (nowSec cooldownMinutes : ℚ) : BuyRec :=
  BuyRec.mk res.1 res.2 nowSec (nowSec + cooldownMinutes * 60)

/-- The cooldown test of the buy phase (Main.py line 516):
`base in in_memory_buys and now() < in_memory_buys[base]["cooldown_until"]`.
An absent registry record never blocks. -/
def cooldown_active (rec : Option BuyRec) (nowSec : ℚ) : Bool :=
  match rec with
  | none => false
  | some r => decide (nowSec < r.cooldown_until)

/-- Registry update performed by a sell branch of the sell phase
(e.g. Main.py lines 400-412): when `sell_qty <= 0` no sell is attempted
and the record is kept; when `market_sell` reports a minimum-volume
failure the record is kept; in every other case (success or any other
error) the branch executes `del in_memory_buys[base]`. -/
def sell_branch_registry (rec : Option BuyRec) (amt : ℚ) (prec : ℕ)
    (res : SellRes) : Option BuyRec :=
  if quantize_amount amt prec ≤ 0 then rec
  else
    match res with
    | SellRes.minVolume => rec
    | SellRes.ok => none
    | SellRes.otherErr => none

/-- The decision taken by the sell phase for one held position. -/
inductive SellDecision where
  | stopLoss : SellDecision
  | takeProfit : SellDecision
  | reversal : SellDecision
  | sidewaysRecycle : SellDecision
  | dustRecovery : SellDecision
  | hold : SellDecision
deriving DecidableEq

/-- Last-three-candles strict decrease, sell side (Main.py line 437):
`closes[-1] < closes[-2] < closes[-3]` on the last three closes. -/
def closes_decreasing (closes : List ℚ) : Bool :=
  match closes.reverse with
  | c2 :: c1 :: c0 :: _ => decide (c2 < c1) && decide (c1 < c0)
  | _ => false

/-- Last-three-candles strict increase, buy side (Main.py line 529):
`closes[-1] > closes[-2] > closes[-3]` on the last three closes. -/
def closes_increasing (closes : List ℚ) : Bool :=
  match closes.reverse with
  | c2 :: c1 :: c0 :: _ => decide (c1 < c2) && decide (c0 < c1)
  | _ => false

/-- Reversal peak test (Main.py lines 438-439): `recent_peak(pair, 30)`
must be truthy and `(peak - price) / peak >= REVERSAL_DROP_PCT`. -/
def peak_drop_ok (peak30? : Option ℚ) (price rev : ℚ) : Bool :=
  match peak30? with
  | some pk => decide (pk ≠ 0) && decide ((pk - price) / pk ≥ rev)
  | none => false

/-- Sideways holding-time test (Main.py line 454): `base in in_memory_buys`
and `(now() - rec["time"]).total_seconds() >= SIDEWAYS_SECONDS`. -/
def held_long_enough (rec : Option BuyRec) (nowSec sidS : ℚ) : Bool :=
  match rec with
  | some r => decide (nowSec - r.timeSec ≥ sidS)
  | none => false

/-- Dust pre-test (Main.py lines 470-471): `m = market_min_amount(pair)`
is truthy and `amt >= m`. -/
def dust_min_ok (min_amount? : Option ℚ) (amt : ℚ) : Bool :=
  match min_amount? with
  | some m => decide (m ≠ 0) && decide (amt ≥ m)
  | none => false

/-- Per-position decision of the sell phase (Main.py lines 379-484),
evaluated on one cycle's snapshot of a held pair.

Inputs mirror the data the loop reads for the position: `price` is
`fetch_price(pair)` (the `price is None` skip is handled by the caller);
`amt` is the wallet balance; `rec` is `in_memory_buys.get(base)`;
`nowSec` the current time; `closes` is `last_n_closes(pair, 3)`;
`peak30?` is `recent_peak(pair, 30)`; `momentum` is
`short_long_momentum(pair)`; `min_amount?` is `market_min_amount(pair)`.
A record whose stored price is `0` is falsy in Python (`if buy_price:`),
so `bp = 0` encodes "no usable entry price".

The branch structure is exactly the source's: stop-loss, take-profit,
reversal (candle pattern AND peak-drop, else fall through), sideways
recycle, then the unconditional dust attempt whenever the market minimum
is known and `amt >= m` - the source never tests `buy_price` there. -/
def evaluate_position (stop_loss_pct take_profit_net_pct fee_est
    reversal_drop_pct sideways_seconds sideways_threshold : ℚ)
    (price amt : ℚ) (rec : Option BuyRec) (nowSec : ℚ)
    (closes : List ℚ) (peak30? : Option ℚ) (momentum : Bool)
    (min_amount? : Option ℚ) : SellDecision :=
  let bp : ℚ := match rec with | none => 0 | some r => r.price
  if bp ≠ 0 ∧ price / bp - 1 ≤ stop_loss_pct then
    SellDecision.stopLoss
  else if bp ≠ 0 ∧ net_pct bp price fee_est ≥ take_profit_net_pct then
    SellDecision.takeProfit
  else if closes_decreasing closes = true ∧
      peak_drop_ok peak30? price reversal_drop_pct = true then
    SellDecision.reversal
  else if bp ≠ 0 ∧ held_long_enough rec nowSec sideways_seconds = true ∧
      |price / bp - 1| ≤ sideways_threshold ∧ momentum = false then
    SellDecision.sidewaysRecycle
  else if dust_min_ok min_amount? amt = true then
    SellDecision.dustRecovery
  else
    SellDecision.hold

/-- Top-of-book snapshot: the price levels of `ob["bids"]` and
`ob["asks"]` (only the best level is read by the source). -/
structure OrderBook where
  bids : List ℚ
  asks : List ℚ
deriving DecidableEq

/-- `spread_ok` (Main.py lines 181-192).  `ob?` is the result of
`exchange.fetch_order_book`: `none` when the fetch raises, in which case
the source's `except` handler returns `True`.  A present book with no
bids or no asks returns `False`.  Otherwise the test is
`(ask - bid) / mid <= max_spread_pct` with `mid = (bid + ask) / 2`; a
zero mid raises `ZeroDivisionError`, which the same handler turns into
`True`. -/
def spread_ok (ob? : Option OrderBook) (max_spread_pct : ℚ) : Bool :=
  match ob? with
  | none => true
  | some ob =>
    match ob.bids, ob.asks with
    | [], _ => false
    | _, [] => false
    | bid :: _, ask :: _ =>
      if bid + ask = 0 then true
      else decide ((ask - bid) / ((bid + ask) / 2) ≤ max_spread_pct)

/-- One executed (or attempted) sell of the sell phase, as the reserve
accounting sees it: which rule's branch ran the sell, the `net_usd`
computed at lines 388-393 (`none` when no entry price was recorded),
whether `sell_qty > 0` so `market_sell` was actually called, and what
`market_sell` returned. -/
structure SellEvent where
  rule : SellDecision
  netUsd : Option ℚ
  qtyPos : Bool
  res : SellRes
deriving DecidableEq

/-- Reserve increment caused by one sell event.  In the source only the
stop-loss branch (lines 403-409) and the take-profit branch (lines
422-429) call `record_take_profit`, and only when the sell result is not
the minimum-volume failure and `net_usd and net_usd > 0`;
`record_take_profit` (lines 278-285) adds `amount_usd * 0.30` to
`stats["reserve_usd"]`.  The reversal branch (lines 444-450), the
sideways branch (lines 460-466) and the dust branch (lines 476-483)
never touch the reserve. -/
def reserve_delta (e : SellEvent) : ℚ :=
  if e.qtyPos = false then 0
  else
    match e.res with
    | SellRes.minVolume => 0
    | _ =>
      match e.rule, e.netUsd with
      | SellDecision.stopLoss, some n => if 0 < n then 30 / 100 * n else 0
      | SellDecision.takeProfit, some n => if 0 < n then 30 / 100 * n else 0
      | _, _ => 0

/-- `stats["reserve_usd"]` after a sequence of sell events, starting
from `r0`: each event adds its `reserve_delta` in order. -/
def reserve_after (r0 : ℚ) (es : List SellEvent) : ℚ :=
  es.foldl (fun r e => r + reserve_delta e) r0

/-- Whether a `market_sell` attempt succeeded. -/
def sell_succeeded (r : SellRes) : Bool :=
  match r with
  | SellRes.ok => true
  | SellRes.minVolume => false
  | SellRes.otherErr => false

/-- Stated by the spec (for comparison with `reserve_delta`, not taken
from the source): "reserve_balance after N cycles equals the sum of
`0.30 * net_usd` over all cycles where a SELL realized `net_usd > 0`" -
i.e. every successful profitable sell contributes, whichever rule
triggered it. -/
def spec_reserve_delta (e : SellEvent) : ℚ :=
  if e.qtyPos = true ∧ sell_succeeded e.res = true then
    match e.netUsd with
    | some n => if 0 < n then 30 / 100 * n else 0
    | none => 0
  else 0

/-- The reserve the spec's sentence predicts after a sequence of sells. -/
def spec_reserve_after (r0 : ℚ) (es : List SellEvent) : ℚ :=
  es.foldl (fun r e => r + spec_reserve_delta e) r0

/-- One held position as `ensure_tradeable` (Main.py lines 243-256)
gathers it: wallet amount, current price, pair precision, plus the
outcome the exchange would give (`sellRes`) and the change in total USD
a successful sell produces (`proceedsUsd`).  The field `pnl` is the
position's unrealized performance; the source sets the sort key to the
constant `0.0` and `bought = None` (line 253-256) and never sorts, so
the loop below ignores `pnl` - it is carried only so that claims about
performance ordering can be stated. -/
structure HeldPosition where
  amt : ℚ
  price : ℚ
  prec : ℕ
  sellRes : SellRes
  proceedsUsd : ℚ
  pnl : ℚ
deriving DecidableEq

/-- The liquidation loop of `ensure_tradeable` (Main.py lines 258-272),
iterating the `held` list in the order it was built (the source performs
no sorting).  Per iteration: stop when
`tradeable = max(0, total*TRADEABLE_FRAC - reserve) >= target`; skip a
position whose quantized amount is `<= 0`; skip a minimum-volume
failure; otherwise the position is sold (recorded in the returned list)
and the total is refreshed.  Returns the positions sold, in order, and
the final total. -/
def ensure_tradeable_loop (frac reserve target : ℚ) :
    ℚ → List HeldPosition → List HeldPosition × ℚ
  | total, [] => ([], total)
  | total, p :: rest =>
    if target ≤ max 0 (total * frac - reserve) then ([], total)
    else if quantize_amount p.amt p.prec ≤ 0 then
      ensure_tradeable_loop frac reserve target total rest
    else
      match p.sellRes with
      | SellRes.minVolume => ensure_tradeable_loop frac reserve target total rest
      | SellRes.ok =>
        let r := ensure_tradeable_loop frac reserve target (total + p.proceedsUsd) rest
        (p :: r.1, r.2)
      | SellRes.otherErr =>
        let r := ensure_tradeable_loop frac reserve target total rest
        (p :: r.1, r.2)

/-- `ensure_tradeable` (Main.py lines 233-275): run the liquidation loop
over the held positions and report which were sold and whether the final
tradeable pool reached the target. -/
def ensure_tradeable (frac reserve target total0 : ℚ)
    (held : List HeldPosition) : List HeldPosition × Bool :=
  let r := ensure_tradeable_loop frac reserve target total0 held
  (r.1, decide (target ≤ max 0 (r.2 * frac - reserve)))

/-- One buy candidate of the buy phase, as a snapshot of everything the
loop body (Main.py lines 505-552) fetches for the pair: ticker price,
current wallet balance of the base, registry record, the liquidity and
spread filter outcomes, `recent_peak(pair, 15)`, `last_n_closes(pair, 3)`,
momentum, market minimum and precision, and the exchange's response to
`create_market_buy_order` (re-using the same price snapshot for the
inner `fetch_price` of `market_buy`). -/
structure Candidate where
  price? : Option ℚ
  baseBalance : ℚ
  memRec : Option BuyRec
  volumeOk : Bool
  spreadPass : Bool
  peak15? : Option ℚ
  closes : List ℚ
  momentum : Bool
  minAmount : Option ℚ
  precision : ℕ
  orderResult : Option Fill
deriving DecidableEq

/-- Allocation sizing with minimum-escalation (Main.py lines 533-543):
`usd_needed = per_buy`; when the market minimum `m` is truthy and
`per_buy < m * price`, escalate to `needed = m * price` if the running
`tradeable_pool` covers it, otherwise skip the candidate (`none`). -/
def escalate (per_buy price : ℚ) (minAmt : Option ℚ) (pool : ℚ) : Option ℚ :=
  match minAmt with
  | none => some per_buy
  | some m =>
    if m = 0 then some per_buy
    else
      let needed := m * price
      if per_buy < needed then
        if needed ≤ pool then some needed else none
      else some per_buy

/-- Outcome of one iteration of the buy loop: `stop` (a `break`),
`skip` (a `continue`), or a buy committing `usd` dollars. -/
inductive StepRes where
  | stop : StepRes
  | skip : StepRes
  | buy : ℚ → StepRes
deriving DecidableEq

/-- The `continue`-on-failure filter chain of the buy loop (Main.py
lines 514-532), for a candidate whose price fetch succeeded, as one
conjunction (the source has no side effects between the checks): not
already held (`get_base_balance(base) > 0` skips), not in cooldown
(line 516), `volume_ok`, `spread_ok`, truthy `recent_peak` with dip
`(peak - price)/peak` not below `DIP_PCT`, three strictly rising closes,
and `short_long_momentum`. -/
def entry_filters_pass (nowSec dip_pct : ℚ) (c : Candidate)
    (price : ℚ) : Bool :=
  !decide (0 < c.baseBalance) && !cooldown_active c.memRec nowSec &&
  c.volumeOk && c.spreadPass &&
  (match c.peak15? with
   | none => false
   | some peak =>
     !decide (peak = 0) && !decide ((peak - price) / peak < dip_pct)) &&
  closes_increasing c.closes && c.momentum

/-- One iteration of the buy loop body (Main.py lines 505-552) for the
candidate `c`, given the running buy count and `tradeable_pool`:
break on `buys >= MAX_BUYS_PER_LOOP` or `tradeable_pool < MIN_TRADE_USD`;
skip on a failed price fetch or a failed entry filter; then minimum
escalation and `market_buy`.  A buy commits `usd_needed` (line 551
subtracts exactly that from the pool). -/
def buy_step (min_trade per_buy dip_pct nowSec : ℚ) (maxBuys buys : ℕ)
    (pool : ℚ) (c : Candidate) : StepRes :=
  if maxBuys ≤ buys then StepRes.stop
  else if pool < min_trade then StepRes.stop
  else
    match c.price? with
    | none => StepRes.skip
    | some price =>
      if entry_filters_pass nowSec dip_pct c price = true then
        match escalate per_buy price c.minAmount pool with
        | none => StepRes.skip
        | some usd =>
          match market_buy (some price) usd c.precision c.minAmount
              c.orderResult with
          | some _ => StepRes.buy usd
          | none => StepRes.skip
      else StepRes.skip

/-- The buy loop (Main.py lines 505-552) over the candidate list, with
running buy count and pool; returns each executed buy together with the
USD it committed, in order. -/
def buy_phase (min_trade per_buy dip_pct nowSec : ℚ) (maxBuys : ℕ) :
    ℕ → ℚ → List Candidate → List (Candidate × ℚ)
  | _, _, [] => []
  | buys, pool, c :: rest =>
    match buy_step min_trade per_buy dip_pct nowSec maxBuys buys pool c with
    | StepRes.stop => []
    | StepRes.skip => buy_phase min_trade per_buy dip_pct nowSec maxBuys buys pool rest
    | StepRes.buy usd =>
      (c, usd) :: buy_phase min_trade per_buy dip_pct nowSec maxBuys (buys + 1) (pool - usd) rest

/-- The whole buy phase (Main.py lines 497-552): skip everything when no
slot is free, otherwise run the loop with
`per_buy = max(MIN_TRADE_USD, tradeable_pool / max(1, free_slots))`,
starting from `buys = 0` and the freshly computed pool. -/
def plan_buys (min_trade dip_pct nowSec : ℚ) (maxBuys : ℕ) (pool0 : ℚ)
    (free_slots : ℕ) (cs : List Candidate) : List (Candidate × ℚ) :=
  if free_slots = 0 then []
  else
    buy_phase min_trade (max min_trade (pool0 / (max 1 free_slots : ℕ)))
      dip_pct nowSec maxBuys 0 pool0 cs

/-- A buy candidate passing every entry filter whose market minimum is 7
units at price 1 USD, forcing escalation above the per-buy allocation. -/
def candidateEscalated : Candidate :=
  Candidate.mk (some 1) 0 none true true (some 2) [1, 2, 3] true (some 7) 0
    (some (Fill.mk 1 7))

/-- A buy candidate passing every entry filter with no market minimum. -/
def candidatePlain : Candidate :=
  Candidate.mk (some 1) 0 none true true (some 2) [1, 2, 3] true none 0
    (some (Fill.mk 1 5))

/-- A profitable, successfully executed reversal sell: `net_usd = 10`. -/
def profitableReversalSell : SellEvent :=
  SellEvent.mk SellDecision.reversal (some 10) true SellRes.ok

/-- A profitable, successfully executed take-profit sell: `net_usd = 10`. -/
def profitableTakeProfitSell : SellEvent :=
  SellEvent.mk SellDecision.takeProfit (some 10) true SellRes.ok

/-! ## Theorems -/

/-- C7: quantization never rounds up.  For every non-negative
`desired_usd`, positive `price` and precision, the quantity computed by
`market_buy`'s quantization step satisfies `quantity * price <= desired_usd`:
`quantize_amount` truncates `desired_usd / price` downward. -/
theorem quantize_never_rounds_up (desired price : ℚ) (prec : ℕ)
    (hd : 0 ≤ desired) (hp : 0 < price) :
    quantize_amount (desired / price) prec * price ≤ desired := by
  have hf : (0 : ℚ) < 10 ^ prec := by positivity
  have h1 : quantize_amount (desired / price) prec ≤ desired / price := by
    rw [quantize_amount, div_le_iff₀ hf]
    exact Int.floor_le _
  calc quantize_amount (desired / price) prec * price
      ≤ desired / price * price := mul_le_mul_of_nonneg_right h1 hp.le
    _ = desired := div_mul_cancel₀ desired hp.ne'

/-- Witness for C7 at `desired_usd = 7`, `price = 3`, `prec = 2`. -/
theorem quantize_never_rounds_up_witness :
    (0 : ℚ) ≤ 7 ∧ (0 : ℚ) < 3 ∧ quantize_amount ((7 : ℚ) / 3) 2 * 3 ≤ 7 :=
  ⟨by norm_num, by norm_num,
    quantize_never_rounds_up 7 3 2 (by norm_num) (by norm_num)⟩

/-- C8: fee round-trip.  For every positive entry price, fee rate `f`
and target `t`, the code's `net_pct` at
`current = entry * (1 + 2*f + t)` is exactly `t`; concretely the
required exit price for entry `1.00`, fee `0.0026`, target `0.04` is
`1.0452`, and at current price `1.05` the sell-phase evaluator returns
the take-profit decision. -/
theorem fee_round_trip (entry f t : ℚ) (h : 0 < entry) :
    net_pct entry (entry * (1 + 2 * f + t)) f = t ∧
    (1 : ℚ) * (1 + 2 * (26 / 10000) + 4 / 100) = 10452 / 10000 ∧
    evaluate_position (-(4 / 100)) (4 / 100) (26 / 10000) (15 / 1000) 600
      (1 / 100) (21 / 20) 100 (some (BuyRec.mk 1 100 0 0)) 0 [] none true
      none = SellDecision.takeProfit := by
  refine ⟨?_, by norm_num, ?_⟩
  · rw [net_pct]
    field_simp
    ring
  · norm_num [evaluate_position, net_pct, closes_decreasing, peak_drop_ok,
      held_long_enough, dust_min_ok]

/-- Witness for C8 at entry `1.00`, fee `0.0026`, target `0.04`. -/
theorem fee_round_trip_witness :
    (0 : ℚ) < 1 ∧
    net_pct 1 (1 * (1 + 2 * (26 / 10000) + 4 / 100)) (26 / 10000) = 4 / 100 :=
  ⟨one_pos, (fee_round_trip 1 (26 / 10000) (4 / 100) one_pos).1⟩

/-- C1 (code behaviour at the failing input): a held position with a
recorded entry price of `1.00`, current price `1.00` (so neither
stop-loss, take-profit, reversal nor sideways triggers), quantity `1`
at a market minimum of `1`, is sent to the opportunistic dust sell, not
held: the dust branch (Main.py lines 469-484) never tests whether an
entry price is recorded. -/
theorem dust_sell_fires_with_known_entry :
    evaluate_position (-(4 / 100)) (4 / 100) (26 / 10000) (15 / 1000) 600
      (1 / 100) 1 1 (some (BuyRec.mk 1 1 0 0)) 0 [] none true (some 1) =
      SellDecision.dustRecovery ∧
    SellDecision.dustRecovery ≠ SellDecision.hold := by
  refine ⟨?_, by decide⟩
  norm_num [evaluate_position, net_pct, closes_decreasing, peak_drop_ok,
    held_long_enough, dust_min_ok]

/-- C2 (code behaviour): a successful sell deletes the in-memory record
(Main.py lines 411-412, 430-431, 448-449, 464-465), and the buy phase's
cooldown test (line 516) only blocks when a record is present - so
immediately after a sell closes a position, no buy of the same base is
ever skipped for cooldown, at any time. -/
theorem cooldown_not_enforced_after_sell (rec : Option BuyRec)
    (amt nowSec : ℚ) (prec : ℕ) (h : 0 < quantize_amount amt prec) :
    sell_branch_registry rec amt prec SellRes.ok = none ∧
    cooldown_active (sell_branch_registry rec amt prec SellRes.ok) nowSec
      = false := by
  have h1 : sell_branch_registry rec amt prec SellRes.ok = none := by
    simp [sell_branch_registry, h.not_le]
  exact ⟨h1, by rw [h1]; rfl⟩

/-- Witness for C2: a record with `cooldown_until = 900` is gone right
after a successful sell at time `0`, well inside the claimed window. -/
theorem cooldown_not_enforced_after_sell_witness :
    0 < quantize_amount 1 0 ∧
    cooldown_active
      (sell_branch_registry (some (BuyRec.mk 1 1 0 900)) 1 0 SellRes.ok) 0
      = false :=
  ⟨by norm_num [quantize_amount],
    (cooldown_not_enforced_after_sell (some (BuyRec.mk 1 1 0 900)) 1 0 0
      (by norm_num [quantize_amount])).2⟩

/-- C4 (code behaviour at the failing input): three sellable positions
with unrealized P&L `-5%`, `+2%`, `-10%`, listed in that order, are
liquidated by `ensure_tradeable` in exactly that listing order - the
`-5%` position first, although `-10% < -5%`: the source builds its
`held` list with a constant `0.0` key and `bought = None` and never
sorts by performance (Main.py lines 243-258). -/
theorem ensure_tradeable_ignores_performance :
    ((ensure_tradeable (7 / 10) 0 100 0
        [HeldPosition.mk 1 1 0 SellRes.ok 1 (-(5 / 100)),
         HeldPosition.mk 1 1 0 SellRes.ok 1 (2 / 100),
         HeldPosition.mk 1 1 0 SellRes.ok 1 (-(10 / 100))]).1.map
      HeldPosition.pnl) = [-(5 / 100), 2 / 100, -(10 / 100)] ∧
    (-(10 / 100) : ℚ) < -(5 / 100) := by
  constructor
  · norm_num [ensure_tradeable, ensure_tradeable_loop, quantize_amount]
  · norm_num

/-- C9 counterexample: when the order-book fetch fails (`none`), the
spread check returns `True` - the candidate passes rather than being
rejected: rejection would be `spread_ok = false`, so the claim's
"fetch fails → rejected" is false at this input. -/
theorem spread_check_passes_on_fetch_failure :
    spread_ok none (3 / 100) = true := by
  rfl

/-- C9 amended: the spread filter is fail-closed only for a fetched book
missing bids or asks; a failed fetch is fail-open (the source's
`except` handler returns `True`, Main.py lines 191-192); with a best bid
and ask present and a nonzero mid, the candidate passes exactly when
`(ask - bid) / mid <= max_spread_pct`. -/
theorem spread_ok_characterization (ms : ℚ) :
    spread_ok none ms = true ∧
    (∀ asks, spread_ok (some (OrderBook.mk [] asks)) ms = false) ∧
    (∀ bids, spread_ok (some (OrderBook.mk bids [])) ms = false) ∧
    (∀ bid bids ask asks, bid + ask ≠ 0 →
      (spread_ok (some (OrderBook.mk (bid :: bids) (ask :: asks))) ms = true ↔
        (ask - bid) / ((bid + ask) / 2) ≤ ms)) := by
  refine ⟨rfl, ?_, ?_, ?_⟩
  · intro asks
    cases asks with
    | nil => rfl
    | cons a as => rfl
  · intro bids
    cases bids with
    | nil => rfl
    | cons b bs => rfl
  · intro bid bids ask asks h
    simp [spread_ok, h]

/-- Witness for C9's amended theorem at `bid = ask = 1`,
`max_spread_pct = 0.03`. -/
theorem spread_ok_characterization_witness :
    (1 : ℚ) + 1 ≠ 0 ∧
    (spread_ok (some (OrderBook.mk [1] [1])) (3 / 100) = true ↔
      ((1 : ℚ) - 1) / (((1 : ℚ) + 1) / 2) ≤ 3 / 100) :=
  ⟨by norm_num,
    (spread_ok_characterization (3 / 100)).2.2.2 1 [] 1 [] (by norm_num)⟩

/-- C5 counterexample: a market with minimum quantity `1.5` and quantity
precision `0` at price `2`.  The buy-phase escalation (Main.py lines
536-540) sets the escalated allocation to `min_quantity * price = 3`
(consulting no minimum notional), yet resolving that amount at the same
price is rejected: `market_buy` truncates `3 / 2 = 1.5` to `1`, which is
below the minimum, so the claim's "resolving the escalated amount ...
succeeds" is false at this input. -/
theorem escalated_amount_can_fail_resolution :
    escalate 1 2 (some (3 / 2)) 10 = some 3 ∧
    market_buy (some 2) 3 0 (some (3 / 2)) (some (Fill.mk 2 1)) = none := by
  constructor
  · norm_num [escalate]
  · norm_num [market_buy, quantize_amount]

/-- C5 amended: when escalation occurs the escalated amount equals
`min_quantity * price` alone (the source knows no minimum-notional
constraint, Main.py line 537: `needed = m * price`), and resolving that
amount at the same price and market succeeds whenever the minimum
quantity is positive and exactly representable at the pair's quantity
precision. -/
theorem escalation_is_min_quantity_times_price (per_buy price m pool : ℚ)
    (prec : ℕ) (fill : Fill) (hesc : per_buy < m * price)
    (hpool : m * price ≤ pool) (hrep : quantize_amount m prec = m)
    (hmpos : 0 < m) (hppos : 0 < price) :
    escalate per_buy price (some m) pool = some (m * price) ∧
    market_buy (some price) (m * price) prec (some m) (some fill) =
      some (price, m) := by
  constructor
  · simp [escalate, hmpos.ne', hesc, hpool]
  · have hraw : m * price / price = m := mul_div_cancel_right₀ m hppos.ne'
    simp [market_buy, hppos.ne', hraw, hrep, hmpos.not_le, lt_irrefl]

/-- Witness for C5's amended theorem: minimum `3` units at price `2`,
precision `0`, per-buy allocation `1`, pool `10`. -/
theorem escalation_is_min_quantity_times_price_witness :
    (1 : ℚ) < 3 * 2 ∧ (3 : ℚ) * 2 ≤ 10 ∧ quantize_amount 3 0 = 3 ∧
    (0 : ℚ) < 3 ∧ (0 : ℚ) < 2 ∧
    market_buy (some 2) (3 * 2) 0 (some 3) (some (Fill.mk 2 3)) =
      some (2, 3) :=
  ⟨by norm_num, by norm_num, by norm_num [quantize_amount], by norm_num,
    by norm_num,
    (escalation_is_min_quantity_times_price 1 2 3 10 0 (Fill.mk 2 3)
      (by norm_num) (by norm_num) (by norm_num [quantize_amount])
      (by norm_num) (by norm_num)).2⟩

/-- Folding `r + f e` over a list equals the start plus the sum of the
per-element contributions. -/
theorem foldl_add_eq (f : SellEvent → ℚ) (es : List SellEvent) :
    ∀ r0 : ℚ, es.foldl (fun r e => r + f e) r0 = r0 + (es.map f).sum := by
  induction es with
  | nil => intro r0; simp
  | cons e rest ih =>
    intro r0
    simp only [List.foldl_cons, List.map_cons, List.sum_cons]
    rw [ih (r0 + f e)]
    ring

/-- Every sell event's reserve increment is non-negative. -/
theorem reserve_delta_nonneg (e : SellEvent) : 0 ≤ reserve_delta e := by
  rcases e with ⟨rule, netUsd, qtyPos, res⟩
  cases rule <;> cases netUsd <;> cases qtyPos <;> cases res <;>
    simp only [reserve_delta] <;> norm_num <;> split_ifs with h <;>
    first
    | rfl
    | positivity
    | linarith

/-- C3 counterexample: a successfully executed reversal sell realizing
`net_usd = 10 > 0` leaves the code's reserve unchanged (`0`), while the
claim's formula ("every profitable sell ... contributes its share")
credits `0.30 * 10 = 3`. -/
theorem reserve_skips_profitable_reversal :
    reserve_after 0 [profitableReversalSell] = 0 ∧
    spec_reserve_after 0 [profitableReversalSell] = 3 ∧
    (0 : ℚ) ≠ 3 := by
  refine ⟨?_, ?_, by norm_num⟩
  · norm_num [reserve_after, reserve_delta, profitableReversalSell]
  · norm_num [spec_reserve_after, spec_reserve_delta, sell_succeeded,
      profitableReversalSell]

/-- C3 amended: the reserve after any sequence of sells equals the start
plus the sum of the per-sell increments; it never decreases; and a sell
contributes a nonzero increment only when it was executed (positive
quantity, no minimum-volume failure) by the stop-loss or take-profit
branch with positive `net_usd`, in which case the increment is
`0.30 * net_usd`.  Profitable reversal, sideways and dust sells, and all
losing sells, contribute nothing. -/
theorem reserve_is_stop_loss_take_profit_share_only (r0 : ℚ)
    (es : List SellEvent) :
    reserve_after r0 es = r0 + (es.map reserve_delta).sum ∧
    r0 ≤ reserve_after r0 es ∧
    (∀ e : SellEvent, reserve_delta e ≠ 0 →
      (e.rule = SellDecision.stopLoss ∨ e.rule = SellDecision.takeProfit) ∧
      e.qtyPos = true ∧ e.res ≠ SellRes.minVolume ∧
      ∃ n, e.netUsd = some n ∧ 0 < n ∧ reserve_delta e = 30 / 100 * n) := by
  refine ⟨foldl_add_eq reserve_delta es r0, ?_, ?_⟩
  · rw [reserve_after, foldl_add_eq reserve_delta es r0]
    have hsum : 0 ≤ ((es.map reserve_delta).sum : ℚ) := by
      apply List.sum_nonneg
      intro x hx
      rcases List.mem_map.mp hx with ⟨e, _, rfl⟩
      exact reserve_delta_nonneg e
    linarith
  · intro e h
    rcases e with ⟨rule, netUsd, qtyPos, res⟩
    cases rule <;> cases netUsd <;> cases qtyPos <;> cases res <;>
      simp_all [reserve_delta] <;> split_ifs at h <;> simp_all

/-- Witness for C3's amended theorem: one successful profitable
take-profit sell, applied to the characterization conjunct. -/
theorem reserve_is_stop_loss_take_profit_share_only_witness :
    (profitableTakeProfitSell.rule = SellDecision.stopLoss ∨
      profitableTakeProfitSell.rule = SellDecision.takeProfit) ∧
    profitableTakeProfitSell.qtyPos = true ∧
    profitableTakeProfitSell.res ≠ SellRes.minVolume ∧
    ∃ n, profitableTakeProfitSell.netUsd = some n ∧ 0 < n ∧
      reserve_delta profitableTakeProfitSell = 30 / 100 * n :=
  (reserve_is_stop_loss_take_profit_share_only 0 []).2.2
    profitableTakeProfitSell
    (by norm_num [reserve_delta, profitableTakeProfitSell])

/-- A successful `escalate` yields either the untouched per-buy
allocation, or - when escalation occurred - an amount `m * price` that
is strictly above the per-buy allocation and within the running pool. -/
theorem escalate_some (per_buy price : ℚ) (minAmt : Option ℚ) (pool usd : ℚ)
    (h : escalate per_buy price minAmt pool = some usd) :
    usd = per_buy ∨
      (per_buy < usd ∧ usd ≤ pool ∧ ∃ m, minAmt = some m ∧ usd = m * price) := by
  cases minAmt with
  | none =>
    left
    simpa [escalate] using h.symm
  | some m =>
    by_cases h0 : m = 0
    · left
      simp [escalate, h0] at h
      exact h.symm
    · by_cases hlt : per_buy < m * price
      · by_cases hp : m * price ≤ pool
        · right
          simp [escalate, h0, hlt, hp] at h
          exact ⟨h ▸ hlt, h ▸ hp, m, rfl, h.symm⟩
        · simp [escalate, h0, hlt, hp] at h
      · left
        simp [escalate, h0, hlt] at h
        exact h.symm

/-- An executed buy implies the cycle's buy cap was not yet reached, the
pool was at least the minimum trade size, and the committed amount is
either the per-buy allocation or an escalated `m * price` within the
pool. -/
theorem buy_step_buy (min_trade per_buy dip_pct nowSec : ℚ)
    (maxBuys buys : ℕ) (pool : ℚ) (c : Candidate) (usd : ℚ)
    (h : buy_step min_trade per_buy dip_pct nowSec maxBuys buys pool c =
      StepRes.buy usd) :
    buys < maxBuys ∧ min_trade ≤ pool ∧
    (usd = per_buy ∨
      (usd ≤ pool ∧
        ∃ m p, c.minAmount = some m ∧ c.price? = some p ∧ usd = m * p)) := by
  by_cases hA : maxBuys ≤ buys
  · simp [buy_step, hA] at h
  by_cases hB : pool < min_trade
  · simp [buy_step, hA, hB] at h
  refine ⟨Nat.lt_of_not_le hA, le_of_not_lt hB, ?_⟩
  rcases hcp : c.price? with _ | price
  · simp [buy_step, hA, hB, hcp] at h
  by_cases hf : entry_filters_pass nowSec dip_pct c price = true
  case neg => simp [buy_step, hA, hB, hcp, hf] at h
  rcases hescr : escalate per_buy price c.minAmount pool with _ | usd0
  · simp [buy_step, hA, hB, hcp, hf, hescr] at h
  rcases hmb : market_buy (some price) usd0 c.precision c.minAmount
      c.orderResult with _ | pr
  · simp [buy_step, hA, hB, hcp, hf, hescr, hmb] at h
  have husd : usd0 = usd := by
    simpa [buy_step, hA, hB, hcp, hf, hescr, hmb] using h
  subst husd
  rcases escalate_some per_buy price c.minAmount pool usd0 hescr with
    h1 | ⟨hlt, hle, m, hm, heq⟩
  · exact Or.inl h1
  · exact Or.inr ⟨hle, ⟨m, price, hm, rfl, heq⟩⟩

/-- The buy loop never emits more than `maxBuys - buys` further buys. -/
theorem buy_phase_length (mt pb dp now : ℚ) (maxBuys : ℕ)
    (cs : List Candidate) :
    ∀ (buys : ℕ) (pool : ℚ),
      (buy_phase mt pb dp now maxBuys buys pool cs).length ≤ maxBuys - buys := by
  induction cs with
  | nil => intro buys pool; simp [buy_phase]
  | cons c rest ih =>
    intro buys pool
    rcases hstep : buy_step mt pb dp now maxBuys buys pool c with _ | _ | usd
    · simp [buy_phase, hstep]
    · simpa [buy_phase, hstep] using ih buys pool
    · have h1 := (buy_step_buy mt pb dp now maxBuys buys pool c usd hstep).1
      have h2 := ih (buys + 1) (pool - usd)
      simp only [buy_phase, hstep, List.length_cons]
      omega

/-- Every buy committed by the loop is sized at the per-buy allocation
or escalated to its candidate's `min_quantity * price`. -/
theorem buy_phase_sizes (mt pb dp now : ℚ) (maxBuys : ℕ)
    (cs : List Candidate) :
    ∀ (buys : ℕ) (pool : ℚ) (cu : Candidate × ℚ),
      cu ∈ buy_phase mt pb dp now maxBuys buys pool cs →
      cu.2 = pb ∨
        ∃ m p, cu.1.minAmount = some m ∧ cu.1.price? = some p ∧
          cu.2 = m * p := by
  induction cs with
  | nil => intro buys pool cu hcu; simp [buy_phase] at hcu
  | cons c rest ih =>
    intro buys pool cu hcu
    rcases hstep : buy_step mt pb dp now maxBuys buys pool c with _ | _ | usd
    · simp [buy_phase, hstep] at hcu
    · rw [buy_phase] at hcu
      rw [hstep] at hcu
      exact ih buys pool cu hcu
    · rw [buy_phase] at hcu
      rw [hstep] at hcu
      rcases List.mem_cons.mp hcu with h1 | h1
      · subst h1
        rcases (buy_step_buy mt pb dp now maxBuys buys pool c usd hstep).2.2 with
          h2 | ⟨_, h2⟩
        · exact Or.inl h2
        · exact Or.inr h2
      · exact ih (buys + 1) (pool - usd) cu h1

/-- The total USD committed by the loop from pool `pool` is at most
`max 0 (pool + pb - mt)`: every buy happens with at least `mt` in the
running counter, escalated buys stay within it, and only a final
non-escalated buy can drive it below zero, by less than `pb - mt`. -/
theorem buy_phase_sum (mt pb dp now : ℚ) (maxBuys : ℕ) (hmt : 0 ≤ mt)
    (hpb : mt ≤ pb) (cs : List Candidate) :
    ∀ (buys : ℕ) (pool : ℚ),
      ((buy_phase mt pb dp now maxBuys buys pool cs).map Prod.snd).sum ≤
        max 0 (pool + pb - mt) := by
  induction cs with
  | nil =>
    intro buys pool
    simp only [buy_phase, List.map_nil, List.sum_nil]
    exact le_max_left 0 _
  | cons c rest ih =>
    intro buys pool
    rcases hstep : buy_step mt pb dp now maxBuys buys pool c with _ | _ | usd
    · simp only [buy_phase, hstep, List.map_nil, List.sum_nil]
      exact le_max_left 0 _
    · simpa [buy_phase, hstep] using ih buys pool
    · have hfacts := buy_step_buy mt pb dp now maxBuys buys pool c usd hstep
      have hpool : mt ≤ pool := hfacts.2.1
      have ihr := ih (buys + 1) (pool - usd)
      simp only [buy_phase, hstep, List.map_cons, List.sum_cons]
      rcases hfacts.2.2 with h1 | ⟨hle, _⟩
      · have hin : (0 : ℚ) ≤ pool - usd + pb - mt := by
          rw [h1]; linarith
        rw [max_eq_right hin] at ihr
        have h0 : (0 : ℚ) ≤ pool + pb - mt := by linarith
        rw [max_eq_right h0]
        linarith
      · have hin : (0 : ℚ) ≤ pool - usd + pb - mt := by linarith
        rw [max_eq_right hin] at ihr
        have h0 : (0 : ℚ) ≤ pool + pb - mt := by linarith
        rw [max_eq_right h0]
        linarith

/-- C6 counterexample: starting pool `10` with `2` free slots gives
`per_buy = 5`; the first candidate escalates to its market minimum
`7 * 1 = 7`, the second - checked only against
`tradeable_pool >= MIN_TRADE_USD` (Main.py line 508) - commits another
`5`, so the cycle commits `12 > 10`: the committed total exceeds the
pool available at the start of the buy phase, refuting the claim's
never-overcommit part. -/
theorem buy_phase_can_overcommit :
    ((plan_buys 1 (4 / 100) 0 2 10 2
        [candidateEscalated, candidatePlain]).map Prod.snd) = [7, 5] ∧
    ¬ (((plan_buys 1 (4 / 100) 0 2 10 2
        [candidateEscalated, candidatePlain]).map Prod.snd).sum ≤ 10) := by
  constructor <;>
    norm_num [plan_buys, buy_phase, buy_step, entry_filters_pass, escalate,
      market_buy, quantize_amount, cooldown_active, closes_increasing,
      candidateEscalated, candidatePlain]

/-- C6 amended: every buy is sized
`per_buy = max(min_trade_usd, tradeable_usd / max(1, open_slots))`
unless escalated to its candidate's `min_quantity * price`; at most
`max_buys_per_cycle` buys are emitted; and the cycle's total committed
USD is bounded by `pool0 + (per_buy - min_trade_usd)` - each buy
consumes its allocation from the running counter, but a non-escalated
buy is only checked against `min_trade_usd`, so the total can exceed
the starting pool by up to `per_buy - min_trade_usd`. -/
theorem plan_buys_bounds (min_trade dip_pct nowSec : ℚ) (maxBuys : ℕ)
    (pool0 : ℚ) (free_slots : ℕ) (cs : List Candidate)
    (h0 : 0 ≤ pool0) (hmt : 0 ≤ min_trade) :
    (plan_buys min_trade dip_pct nowSec maxBuys pool0 free_slots cs).length ≤
      maxBuys ∧
    (∀ cu ∈ plan_buys min_trade dip_pct nowSec maxBuys pool0 free_slots cs,
      cu.2 = max min_trade (pool0 / (max 1 free_slots : ℕ)) ∨
      ∃ m p, cu.1.minAmount = some m ∧ cu.1.price? = some p ∧ cu.2 = m * p) ∧
    ((plan_buys min_trade dip_pct nowSec maxBuys pool0 free_slots cs).map
      Prod.snd).sum ≤
      pool0 + (max min_trade (pool0 / (max 1 free_slots : ℕ)) - min_trade) := by
  have hpb : min_trade ≤ max min_trade (pool0 / (max 1 free_slots : ℕ)) :=
    le_max_left _ _
  by_cases hs : free_slots = 0
  · subst hs
    refine ⟨?_, ?_, ?_⟩
    · simp [plan_buys]
    · intro cu hcu
      simp [plan_buys] at hcu
    · simp only [plan_buys, if_pos, List.map_nil, List.sum_nil]
      linarith
  · refine ⟨?_, ?_, ?_⟩
    · simpa [plan_buys, hs] using
        buy_phase_length min_trade
          (max min_trade (pool0 / (max 1 free_slots : ℕ))) dip_pct nowSec
          maxBuys cs 0 pool0
    · intro cu hcu
      rw [plan_buys, if_neg hs] at hcu
      exact buy_phase_sizes _ _ _ _ _ cs 0 pool0 cu hcu
    · rw [plan_buys, if_neg hs]
      have hsum := buy_phase_sum min_trade
        (max min_trade (pool0 / (max 1 free_slots : ℕ))) dip_pct nowSec
        maxBuys hmt hpb cs 0 pool0
      have hin : (0 : ℚ) ≤
          pool0 + max min_trade (pool0 / (max 1 free_slots : ℕ)) - min_trade := by
        linarith
      rw [max_eq_right hin] at hsum
      linarith

/-- Witness for C6's amended theorem at the overcommitting input. -/
theorem plan_buys_bounds_witness :
    (0 : ℚ) ≤ 10 ∧ (0 : ℚ) ≤ 1 ∧
    ((plan_buys 1 (4 / 100) 0 2 10 2
        [candidateEscalated, candidatePlain]).map Prod.snd).sum ≤
      10 + (max 1 ((10 : ℚ) / (max 1 2 : ℕ)) - 1) :=
  ⟨by norm_num, by norm_num,
    (plan_buys_bounds 1 (4 / 100) 0 2 10 2
      [candidateEscalated, candidatePlain] (by norm_num) (by norm_num)).2.2⟩

/-- C10: a successful `market_buy` returns the ticker price it fetched
before placing the order together with the locally quantized quantity -
for every possible exchange fill response `fill` - and the registered
position record stores exactly those two values.  Nothing from the fill
reaches the record, so the recorded cost basis can differ from the
actual fill. -/
theorem buy_records_prefetched_price_and_local_qty (price usd : ℚ)
    (prec : ℕ) (minAmt : Option ℚ) (fill : Fill) (nowSec cooldownMinutes : ℚ)
    (hp : price ≠ 0) (hq : 0 < quantize_amount (usd / price) prec)
    (hm : ∀ m, minAmt = some m → m ≠ 0 →
      ¬ quantize_amount (usd / price) prec < m) :
    market_buy (some price) usd prec minAmt (some fill) =
      some (price, quantize_amount (usd / price) prec) ∧
    (register_buy (price, quantize_amount (usd / price) prec) nowSec
      cooldownMinutes).price = price ∧
    (register_buy (price, quantize_amount (usd / price) prec) nowSec
      cooldownMinutes).qty = quantize_amount (usd / price) prec := by
  refine ⟨?_, rfl, rfl⟩
  cases minAmt with
  | none => simp [market_buy, hp, hq.not_le]
  | some m =>
    by_cases h0 : m = 0
    · subst h0
      simp [market_buy, hp, hq.not_le]
    · have hnl := hm m rfl h0
      simp [market_buy, hp, hq.not_le, h0, hnl]

/-- Witness for C10: the exchange fills at price `3`, but the record
keeps the pre-order ticker price `2` and local quantity `5`. -/
theorem buy_records_prefetched_price_and_local_qty_witness :
    (2 : ℚ) ≠ 0 ∧ 0 < quantize_amount ((10 : ℚ) / 2) 0 ∧
    market_buy (some 2) 10 0 none (some (Fill.mk 3 4)) =
      some (2, quantize_amount ((10 : ℚ) / 2) 0) ∧
    (3 : ℚ) ≠ 2 :=
  ⟨by norm_num, by norm_num [quantize_amount],
    (buy_records_prefetched_price_and_local_qty 2 10 0 none (Fill.mk 3 4) 0 15
      (by norm_num) (by norm_num [quantize_amount])
      (fun m h => absurd h (by simp))).1,
    by norm_num⟩

end KrakemBot
